import Mathlib

/-!
Verification development for the reaction-rule engine of the Timbot
repository (file `src/Features/ReactionManager.js`).

Strings are embedded as lists of characters (`Str`); JavaScript values
that may be `null` are embedded as `Option`; the stored 0/1 integer
flags are embedded as `Bool` (their JS truthiness).  Fallible external
collaborators (the persistent store) are passed in as explicit inputs:
a `none` input stands for the failing call (`false` return or thrown
exception).
-/

/-- Character-list strings, the embedding of JS strings. -/
abbrev Str := List Char

/-- Convenience conversion from a Lean string literal to `Str`. -/
def str (s : String) : Str := s.data

/-- The fixed "grammatical punctuation" set removed by the matcher when a
rule is case-insensitive: the six characters stripped at
`ReactionManager._handleDiscordMessage` (the `replaceAll` chain). -/
def isGramPunct (c : Char) : Bool :=
  c = '!' || c = '?' || c = Char.ofNat 39 || c = Char.ofNat 34 || c = ',' || c = '.'

/-- Embedding of `String.prototype.toLowerCase` (ASCII fragment). -/
def lowerStr (s : Str) : Str := s.map Char.toLower

/-- Embedding of the six successive `replaceAll(c, "")` calls: every
occurrence of each punctuation character is deleted. -/
def stripPunct (s : Str) : Str := s.filter (fun c => !isGramPunct c)

/-- Lowercasing followed by the punctuation strip.  In the source this
full normalization is applied to the chat side only (`chatNormal`,
lines 153 and 157-162); it is also the symmetric both-sides
normalization that the spec describes, used as the edit relation in the
invariance statements below. -/
def normalizeInsensitive (s : Str) : Str := stripPunct (lowerStr s)

/-- Chat-side normalization of the matcher: when the rule is
insensitive, `chatNormal` is lowercased (line 153) and then the
punctuation set is removed from it (lines 157-162). -/
def chatNormalize (ins : Bool) (s : Str) : Str :=
  if ins then normalizeInsensitive s else s

/-- Trigger-side normalization of the matcher: when the rule is
insensitive, `triggerNormal` is lowercased only (line 154) — the
`replaceAll` punctuation strip at lines 157-162 touches `chatNormal`
alone, so punctuation in the trigger survives. -/
def trigNormalize (ins : Bool) (s : Str) : Str :=
  if ins then lowerStr s else s

/-- JS truthiness of a nullable string: `null` and `""` are falsy. -/
def truthy : Option Str → Bool
  | none => false
  | some s => !s.isEmpty

/-- JS `x || null` on a nullable string: empty collapses to `null`. -/
def jsOrNullStr : Option Str → Option Str
  | none => none
  | some s => if s.isEmpty then none else some s

/-- JS `parseInt(x) || null` on a parsed integer (`none` = `NaN`):
`0` and `NaN` collapse to `null`. -/
def jsOrNullInt : Option Int → Option Int
  | none => none
  | some n => if n = 0 then none else some n

/-- Whitespace recognized by the embedding of `String.prototype.trim`. -/
def isJsSpace (c : Char) : Bool :=
  c = ' ' || c = '\t' || c = '\n' || c = '\r' || c = Char.ofNat 11 || c = Char.ofNat 12

/-- Embedding of `String.prototype.trim`. -/
def jsTrim (s : Str) : Str :=
  ((s.dropWhile isJsSpace).reverse.dropWhile isJsSpace).reverse

/-- Embedding of `chat.indexOf(needle) >= 0`: the needle occurs as a
contiguous substring of the haystack (the empty needle always occurs). -/
def strContains (hay needle : Str) : Bool :=
  needle.isPrefixOf hay ||
    match hay with
    | [] => false
    | _ :: t => strContains t needle

/-- JS `\w` word characters: ASCII alphanumerics and underscore. -/
def isWordChar (c : Char) : Bool := c.isAlphanum || c = '_'

/-- Word-character test on an optional character; a string edge (`none`)
is a non-word position, as for the JS `\b` assertion. -/
def optIsWord : Option Char → Bool
  | none => false
  | some c => isWordChar c

/-- The JS `\b` assertion between two adjacent subject positions. -/
def boundary (a b : Option Char) : Bool := optIsWord a != optIsWord b

/-- Embedding of `chatNormal.match(new RegExp("\x5Cb" + trig + "\x5Cb", "gm")) !== null`
for triggers free of regex metacharacters: some occurrence of the trigger
in the subject has a word boundary on both sides. -/
def kwMatch (chat trig : Str) : Bool :=
  (List.range (chat.length + 1)).any (fun i =>
    trig.isPrefixOf (chat.drop i) &&
    boundary (chat.take i).getLast? (chat.drop i).head? &&
    boundary (chat.take (i + trig.length)).getLast? (chat.drop (i + trig.length)).head?)

/-- A reaction rule record as held in `this._data` (a row of the
`reactions` table or a normalized write payload).  The stored 0/1
integer flags are embedded as `Bool`. -/
structure Reaction where
  id : Option Int
  type : Option Str
  trigger : Option Str
  must_mention : Bool
  insensitive : Bool
  response : Option Str
  emote : Option Str
  do_mention : Bool
deriving DecidableEq

/-- The per-rule predicate of the `Object.values(this._data).filter(...)`
callback in `_handleDiscordMessage`: empty-trigger gate, mention gate,
normalization, then the `switch` on `reaction.type` (`keyword` boundary
match, `message` exact match, `text`/default substring match). -/
def reactionFilter (didMentionUs : Bool) (cleanText : Str) (r : Reaction) : Bool :=
  if truthy r.trigger = false then false
  else if r.must_mention && !didMentionUs then false
  else
    let chatNormal := chatNormalize r.insensitive cleanText
    let triggerNormal := trigNormalize r.insensitive (r.trigger.getD [])
    if r.type = some (str "keyword") then kwMatch chatNormal triggerNormal
    else if r.type = some (str "message") then chatNormal == triggerNormal
    else strContains chatNormal triggerNormal

/-- The fields of an inbound Discord message consumed by
`_handleDiscordMessage`. -/
structure Message where
  authorBot : Bool
  system : Bool
  cleanContent : Str
  channelIsDM : Bool
  mentionsBot : Bool
deriving DecidableEq

/-- The in-memory rule mapping `this._data`: association list from the
integer key to the record, kept in ascending key order as JS objects
iterate integer-like keys. -/
abbrev RMap := List (Int × Reaction)

/-- Lookup of `this._data[k]`. -/
def rget : RMap → Int → Option Reaction
  | [], _ => none
  | (k, v) :: rest, k₀ => if k₀ = k then some v else rget rest k₀

/-- Assignment `this._data[k] = v` (insert keeping ascending key order,
or replace in place). -/
def rset : RMap → Int → Reaction → RMap
  | [], k, v => [(k, v)]
  | (k₀, v₀) :: rest, k, v =>
    if k < k₀ then (k, v) :: (k₀, v₀) :: rest
    else if k = k₀ then (k, v) :: rest
    else (k₀, v₀) :: rset rest k v

/-- Deletion `delete this._data[k]`. -/
def rdel : RMap → Int → RMap
  | [], _ => []
  | (k₀, v₀) :: rest, k => if k = k₀ then rest else (k₀, v₀) :: rdel rest k

/-- `Object.values(this._data)`. -/
def values (m : RMap) : List Reaction := m.map Prod.snd

/-- Embedding of `_handleDiscordMessage`: the list of rules the handler
matches and dispatches (one `_deliverReaction` call per element).  The
bot/system gate and the empty-text gate run before any rule evaluation;
an early `return` yields the empty list. -/
def handleDiscordMessage (msg : Message) (data : RMap) : List Reaction :=
  if msg.authorBot || msg.system then []
  else
    let cleanText := jsTrim msg.cleanContent
    if cleanText.isEmpty then []
    else
      let isDirectMessage := msg.channelIsDM
      let didMentionUs := isDirectMessage || msg.mentionsBot
      (values data).filter (reactionFilter didMentionUs cleanText)

/-- The raw payload of a `reaction_write` request after the JS numeric
parses: each `parseInt(...)` result is `none` when the field was missing
or unparseable (`NaN`), nullable strings are `Option Str`. -/
structure ApiWriteData where
  id : Option Int
  type : Option Str
  trigger : Option Str
  must_mention : Option Int
  insensitive : Option Int
  response : Option Str
  emote : Option Str
  do_mention : Option Int
deriving DecidableEq

/-- The `upsertData` object built by `_handleApiWriteReaction`:
`parseInt(data.id) || null`, `data.type || null`, `data.trigger || null`,
`parseInt(flag) === 1 ? 1 : 0`, `data.response || null`,
`(data.emote || "").trim() || null`. -/
def buildUpsertData (d : ApiWriteData) : Reaction :=
  { id := jsOrNullInt d.id
    type := jsOrNullStr d.type
    trigger := jsOrNullStr d.trigger
    must_mention := d.must_mention = some 1
    insensitive := d.insensitive = some 1
    response := jsOrNullStr d.response
    emote := jsOrNullStr (some (jsTrim (d.emote.getD [])))
    do_mention := d.do_mention = some 1 }

/-- Embedding of `_handleApiWriteReaction`.  `dbResult` is the value of
`Timbot.db.insertOrUpdate("reactions", upsertData)`, modelled from the
spec of the persistent store (not under `src/`): `none` is the `false`
failure return, `some rid` the resolved primary key.  Returns the new
mapping and `false` exactly on the early failure return. -/
def handleApiWriteReaction (dbResult : Option Int) (d : ApiWriteData) (mem : RMap) :
    RMap × Bool :=
  let upsertData := buildUpsertData d
  match dbResult with
  | none => (mem, false)
  | some recordId =>
    let upsertData :=
      if upsertData.id = none ∧ recordId ≠ 0 then
        { upsertData with id := some recordId }
      else upsertData
    (rset mem recordId upsertData, true)

/-- Combined store state for the delete handler: the persistent table
and the in-memory projection. -/
structure RState where
  db : RMap
  mem : RMap
deriving DecidableEq

/-- Modelled from the spec: `Timbot.db.deleteIfExists` (persistence code
not under `src/`) deletes a row by primary key and returns whether a row
was removed. -/
def deleteIfExists (db : RMap) (i : Int) : RMap × Bool :=
  (rdel db i, (rget db i).isSome)

/-- Embedding of `_handleApiReactionDelete`.  `dataId` is the
`parseInt(data.id)` result (`none` = missing/`NaN`).  Returns the new
state and, when a broadcast is pushed back over the socket, the
`reactions` array of the `reactions_fetch` payload built by
`_handleApiReactionsFetch` from the patched in-memory state. -/
def handleApiReactionDelete (st : RState) (dataId : Option Int) :
    RState × Option (List Reaction) :=
  match jsOrNullInt dataId with
  | some i =>
    if i > 0 then
      let res := deleteIfExists st.db i
      let mem := if res.2 then rdel st.mem i else st.mem
      (⟨res.1, mem⟩, some (values mem))
    else (st, none)
  | none => (st, none)

/-- A dynamically typed JS return value, to state what `reloadAll`
returns (`true`/`false` booleans versus a numeric count). -/
inductive JsRet where
  | bool (b : Bool)
  | num (n : Int)
deriving DecidableEq

/-- Embedding of `reloadAll`.  `dbRows` is the result of
`this.dbc.prepare(...).all()` on the persistent store (code not under
`src/`, modelled from the spec): `none` when the store is unreachable or
returns malformed rows (the call throws, caught by the handler which
logs and returns `false`, leaving `this._data` untouched); `some rows`
on success, after which `this._data` is rebuilt from scratch
(`this._data = \x7b\x7d` followed by `forEach` keyed assignment) and
`true` is returned. -/
def reloadAll (dbRows : Option (List Reaction)) (data : RMap) : RMap × JsRet :=
  match dbRows with
  | none => (data, JsRet.bool false)
  | some rows =>
    (rows.foldl (fun m r => rset m (r.id.getD 0) r) [], JsRet.bool true)

/-- The key under which `reloadAll` files a row (`this._data[row.id]`). -/
def rkey (r : Reaction) : Int := r.id.getD 0

/-- The last row of the list carrying the given key, if any: the record
that keyed assignment in input order leaves at that key. -/
def rowsLookup : List Reaction → Int → Option Reaction
  | [], _ => none
  | r :: rest, k =>
    match rowsLookup rest k with
    | some x => some x
    | none => if rkey r = k then some r else none

theorem rget_rset (m : RMap) (k k' : Int) (v : Reaction) :
    rget (rset m k v) k' = if k' = k then some v else rget m k' := by
  induction m with
  | nil => simp [rset, rget]
  | cons hd tl ih =>
    obtain ⟨k₀, v₀⟩ := hd
    simp only [rset]
    by_cases h1 : k < k₀
    · simp [h1, rget]
    · by_cases h2 : k = k₀
      · subst h2
        rw [if_neg h1, if_pos rfl]
        simp only [rget]
        split_ifs <;> rfl
      · rw [if_neg h1, if_neg h2]
        simp only [rget, ih]
        split_ifs with hA hB hC <;> first | rfl | omega
theorem rget_rdel_ne (m : RMap) (k k' : Int) (h : k' ≠ k) :
    rget (rdel m k) k' = rget m k' := by
  induction m with
  | nil => simp [rdel]
  | cons hd tl ih =>
    obtain ⟨k₀, v₀⟩ := hd
    simp only [rdel]
    by_cases h1 : k = k₀
    · subst h1
      simp [rget, h]
    · simp [rget, h1, ih]

theorem rdel_eq_of_rget_none (m : RMap) (k : Int) (h : rget m k = none) :
    rdel m k = m := by
  induction m with
  | nil => rfl
  | cons hd tl ih =>
    obtain ⟨k₀, v₀⟩ := hd
    simp only [rget] at h
    by_cases h1 : k = k₀
    · simp [h1] at h
    · simp only [rdel, if_neg h1]
      rw [ih (by simpa [h1] using h)]

theorem rget_reload_fold (rows : List Reaction) (m : RMap) (k : Int) :
    rget (rows.foldl (fun acc r => rset acc (rkey r) r) m) k =
      match rowsLookup rows k with
      | some x => some x
      | none => rget m k := by
  induction rows generalizing m with
  | nil => simp [rowsLookup]
  | cons r rest ih =>
    simp only [List.foldl_cons, rowsLookup]
    rw [ih]
    cases hfind : rowsLookup rest k with
    | some x => simp
    | none =>
      simp only [rget_rset]
      by_cases hk : rkey r = k
      · rw [if_pos hk.symm, if_pos hk]
      · rw [if_neg (fun h => hk h.symm), if_neg hk]

theorem reactionFilter_of_no_trigger (d : Bool) (m : Str) (r : Reaction)
    (h : truthy r.trigger = false) : reactionFilter d m r = false := by
  simp [reactionFilter, h]

theorem reactionFilter_of_must_mention (m : Str) (r : Reaction)
    (h : r.must_mention = true) : reactionFilter false m r = false := by
  by_cases ht : truthy r.trigger = false <;> simp [reactionFilter, h, ht]

/-- A sample rule used to instantiate the matcher theorems. -/
def exRule : Reaction :=
  { id := some 1, type := some (str "text"), trigger := some (str "cat")
    must_mention := true, insensitive := true
    response := some (str "meow"), emote := none, do_mention := false }

/-- A sample plain channel message used to instantiate the matcher
theorems. -/
def exMsg : Message :=
  { authorBot := false, system := false, cleanContent := str "I love Cats!"
    channelIsDM := false, mentionsBot := false }

/-- A sample one-rule store. -/
def exData : RMap := [(1, exRule)]

/-- C4: a rule with `must_mention = true` never matches a message that is
neither a direct message nor one mentioning the bot, for any trigger and
type: `didMentionUs` is false, so the mention gate excludes the rule. -/
theorem must_mention_excludes_unmentioned (msg : Message) (data : RMap) (r : Reaction)
    (hmm : r.must_mention = true) (hdm : msg.channelIsDM = false)
    (hmen : msg.mentionsBot = false) :
    r ∉ handleDiscordMessage msg data := by
  unfold handleDiscordMessage
  by_cases hb : (msg.authorBot || msg.system) = true
  · simp [hb]
  · simp only [hb, Bool.false_eq_true, if_false]
    by_cases he : (jsTrim msg.cleanContent).isEmpty = true
    · simp [he]
    · simp only [he, Bool.false_eq_true, if_false]
      intro hmem
      rw [List.mem_filter] at hmem
      have hfilt := hmem.2
      rw [hdm, hmen, Bool.or_self] at hfilt
      rw [reactionFilter_of_must_mention _ _ hmm] at hfilt
      exact absurd hfilt (by simp)

/-- Witness for C4: the sample must-mention rule is not matched for a
plain channel message without a mention. -/
theorem must_mention_excludes_unmentioned_witness :
    exRule ∉ handleDiscordMessage exMsg exData :=
  must_mention_excludes_unmentioned exMsg exData exRule rfl rfl rfl

/-- C5: a rule whose trigger is missing (`null`) or empty can sit in the
store but is never selected by the matcher, for every message, rule type
and flag combination: the falsy-trigger gate excludes it first. -/
theorem empty_trigger_never_selected (msg : Message) (data : RMap) (r : Reaction)
    (h : r.trigger = none ∨ r.trigger = some []) :
    r ∉ handleDiscordMessage msg data := by
  have ht : truthy r.trigger = false := by
    rcases h with h | h <;> rw [h] <;> rfl
  unfold handleDiscordMessage
  by_cases hb : (msg.authorBot || msg.system) = true
  · simp [hb]
  · simp only [hb, Bool.false_eq_true, if_false]
    by_cases he : (jsTrim msg.cleanContent).isEmpty = true
    · simp [he]
    · simp only [he, Bool.false_eq_true, if_false]
      intro hmem
      rw [List.mem_filter] at hmem
      have hfilt := hmem.2
      rw [reactionFilter_of_no_trigger _ _ _ ht] at hfilt
      exact absurd hfilt (by simp)

/-- A triggerless rule used to instantiate C5. -/
def exNoTriggerRule : Reaction :=
  { id := some 9, type := some (str "keyword"), trigger := none
    must_mention := false, insensitive := false
    response := some (str "hi"), emote := none, do_mention := true }

/-- Witness for C5: a stored triggerless rule is not matched. -/
theorem empty_trigger_never_selected_witness :
    exNoTriggerRule ∉ handleDiscordMessage exMsg [(9, exNoTriggerRule)] :=
  empty_trigger_never_selected exMsg [(9, exNoTriggerRule)] exNoTriggerRule (Or.inl rfl)

/-- C8: a message from a bot or system author, or one whose text trims to
empty, short-circuits before any rule evaluation: no rule is matched, so
no reaction or reply is dispatched (`_deliverReaction` is invoked once
per returned rule). -/
theorem gates_short_circuit (msg : Message) (data : RMap)
    (h : msg.authorBot = true ∨ msg.system = true ∨ jsTrim msg.cleanContent = []) :
    handleDiscordMessage msg data = [] := by
  unfold handleDiscordMessage
  rcases h with h | h | h
  · simp [h]
  · simp [h]
  · simp [h]

/-- Witness for C8: a bot-authored message and a whitespace-only message
both produce no matches against a store whose rule would otherwise fire. -/
theorem gates_short_circuit_witness :
    handleDiscordMessage { exMsg with authorBot := true } exData = [] ∧
    handleDiscordMessage { exMsg with cleanContent := str "   " } exData = [] :=
  ⟨gates_short_circuit _ exData (Or.inl rfl),
   gates_short_circuit _ exData (Or.inr (Or.inr (by decide)))⟩

/-- C1 (amended): for an insensitive rule the per-rule matcher result is
invariant under case changes and punctuation insertion or removal in the
incoming message, and under case changes in the trigger.  Two messages
related by such edits are exactly two messages with the same
`normalizeInsensitive` image; two triggers related by case changes alone
are two triggers with the same `lowerStr` image.  Punctuation edits in
the trigger are not invisible: the code strips the punctuation set from
the chat side only. -/
theorem insensitive_matcher_invariance (ment : Bool) (m m' g g' : Str) (r : Reaction)
    (hins : r.insensitive = true)
    (hm : normalizeInsensitive m = normalizeInsensitive m')
    (hg : lowerStr g = lowerStr g') :
    reactionFilter ment m { r with trigger := some g } =
      reactionFilter ment m' { r with trigger := some g' } := by
  have hempty : g.isEmpty = g'.isEmpty := by
    cases g with
    | nil =>
      cases g' with
      | nil => rfl
      | cons b bs => simp [lowerStr] at hg
    | cons a as =>
      cases g' with
      | nil => simp [lowerStr] at hg
      | cons b bs => rfl
  by_cases hE : g.isEmpty = true
  · have hE' : g'.isEmpty = true := hempty ▸ hE
    have ht : truthy (some g) = false := by simp [truthy, hE]
    have ht' : truthy (some g') = false := by simp [truthy, hE']
    rw [reactionFilter_of_no_trigger _ _ _ ht, reactionFilter_of_no_trigger _ _ _ ht']
  · have hE' : ¬ g'.isEmpty = true := hempty ▸ hE
    have ht : truthy (some g) = true := by simp [truthy, hE]
    have ht' : truthy (some g') = true := by simp [truthy, hE']
    simp only [reactionFilter, ht, ht', Option.getD_some, chatNormalize, trigNormalize,
      hins, if_true]
    rw [hm, hg]

/-- Witness for C1: the sample insensitive rule treats `"CAT"` and
`"cat"` as triggers, and `"I love Cats!"` and `"i love cats"` as
messages, identically. -/
theorem insensitive_matcher_invariance_witness :
    reactionFilter true (str "I love Cats!") { exRule with trigger := some (str "CAT") } =
      reactionFilter true (str "i love cats") { exRule with trigger := some (str "cat") } :=
  insensitive_matcher_invariance true (str "I love Cats!") (str "i love cats")
    (str "CAT") (str "cat") exRule rfl (by decide) (by decide)

/-- An insensitive default-type rule with trigger `"cat"`, exposing the
failure of trigger-side punctuation invariance. -/
def c1Rule : Reaction :=
  { id := none, type := none, trigger := some (str "cat")
    must_mention := false, insensitive := true
    response := none, emote := none, do_mention := false }

/-- C1 counterexample: inserting a comma into the trigger `"cat"` (an
edit the claim says is invisible) flips the matcher result on the
message `"cat"`: the punctuation strip is applied to the chat side only,
so the trigger keeps its comma and the substring test fails. -/
theorem insensitive_invariance_fails_on_punct_trigger :
    normalizeInsensitive (str "cat,") = normalizeInsensitive (str "cat") ∧
    reactionFilter false (str "cat") c1Rule = true ∧
    reactionFilter false (str "cat") { c1Rule with trigger := some (str "cat,") } = false := by
  decide

/-- C3 (amended): for a rule of type `message` that passes the
empty-trigger gate and the mention gate, the matcher selects it iff the
chat-side normal form of the chat text (lowercased and
punctuation-stripped when insensitive) equals the trigger-side normal
form of the trigger (lowercased only when insensitive) — the
normalization is asymmetric, not the symmetric one the claim states. -/
theorem message_type_exact_match (ment : Bool) (m : Str) (r : Reaction)
    (htype : r.type = some (str "message"))
    (htrig : truthy r.trigger = true)
    (hment : r.must_mention = true → ment = true) :
    (reactionFilter ment m r = true ↔
      chatNormalize r.insensitive m = trigNormalize r.insensitive (r.trigger.getD [])) := by
  have hgate : (r.must_mention && !ment) = false := by
    cases hmm : r.must_mention
    · rfl
    · rw [hment hmm]
      rfl
  simp only [reactionFilter, htrig, htype, hgate, Bool.true_eq_false, if_false,
    Bool.false_eq_true]
  rw [if_neg (by decide), if_pos trivial]
  exact beq_iff_eq

/-- A sample exact-match rule. -/
def exMessageRule : Reaction :=
  { id := some 4, type := some (str "message"), trigger := some (str "hello")
    must_mention := false, insensitive := false
    response := some (str "hi there"), emote := none, do_mention := false }

/-- Witness for C3: the sample exact-match rule against the chat text
`"hello there"`, which the amended claim resolves to a non-match. -/
theorem message_type_exact_match_witness :
    (reactionFilter false (str "hello there") exMessageRule = true ↔
      chatNormalize exMessageRule.insensitive (str "hello there") =
        trigNormalize exMessageRule.insensitive (exMessageRule.trigger.getD [])) :=
  message_type_exact_match false (str "hello there") exMessageRule rfl (by decide) (by decide)

/-- An insensitive exact-match rule whose trigger carries punctuation,
exposing the asymmetry of the normalization. -/
def c3Rule : Reaction :=
  { id := none, type := some (str "message"), trigger := some (str "hi!")
    must_mention := false, insensitive := true
    response := none, emote := none, do_mention := false }

/-- C3 counterexample: under the symmetric normalization the claim
describes, chat `"hi"` and trigger `"hi!"` are equal, yet the rule is
not selected: the code strips punctuation from the chat side only and
compares `"hi"` with the merely lowercased `"hi!"`. -/
theorem message_type_iff_fails_on_asymmetric_strip :
    normalizeInsensitive (str "hi") = normalizeInsensitive (str "hi!") ∧
    reactionFilter false (str "hi") c3Rule = false := by
  decide

/-- C9 (amended): for a rule whose type is missing or is none of
`keyword`/`message`/`text`, and which passes the empty-trigger gate and
the mention gate, the matcher applies substring semantics: it matches
iff the trigger-side normal form of the trigger (lowercased only when
insensitive) occurs as a substring of the chat-side normal form of the
chat text (lowercased and punctuation-stripped when insensitive). -/
theorem unknown_type_substring (ment : Bool) (m : Str) (r : Reaction)
    (hk : r.type ≠ some (str "keyword"))
    (hmsg : r.type ≠ some (str "message"))
    (_htxt : r.type ≠ some (str "text"))
    (htrig : truthy r.trigger = true)
    (hment : r.must_mention = true → ment = true) :
    reactionFilter ment m r =
      strContains (chatNormalize r.insensitive m)
        (trigNormalize r.insensitive (r.trigger.getD [])) := by
  have hgate : (r.must_mention && !ment) = false := by
    cases hmm : r.must_mention
    · rfl
    · rw [hment hmm]
      rfl
  simp only [reactionFilter, htrig, hgate, Bool.true_eq_false, if_false,
    Bool.false_eq_true]
  rw [if_neg hk, if_neg hmsg]

/-- A rule with an unrecognized type, taking the default branch. -/
def exOddTypeRule : Reaction :=
  { id := some 6, type := some (str "fuzzy"), trigger := some (str "cat")
    must_mention := false, insensitive := false
    response := none, emote := some (str ":tada:"), do_mention := false }

/-- Witness for C9: the unrecognized-type rule matches `"concatenate"`
by plain substring search. -/
theorem unknown_type_substring_witness :
    reactionFilter false (str "concatenate") exOddTypeRule =
      strContains (chatNormalize exOddTypeRule.insensitive (str "concatenate"))
        (trigNormalize exOddTypeRule.insensitive (exOddTypeRule.trigger.getD [])) :=
  unknown_type_substring false (str "concatenate") exOddTypeRule
    (by decide) (by decide) (by decide) (by decide) (by decide)

/-- An insensitive typeless rule whose trigger carries punctuation,
exposing the asymmetry of the normalization in the default branch. -/
def c9Rule : Reaction :=
  { id := none, type := none, trigger := some (str "cat.")
    must_mention := false, insensitive := true
    response := none, emote := none, do_mention := false }

/-- C9 counterexample: under the symmetric normalization the claim
describes, trigger `"cat."` normalizes to `"cat"`, a substring of the
normalized chat text `"cat"`, yet the rule is not selected: the default
branch runs `indexOf` with the merely lowercased trigger `"cat."`,
absent from the punctuation-stripped chat `"cat"`. -/
theorem unknown_type_iff_fails_on_asymmetric_strip :
    strContains (normalizeInsensitive (str "cat")) (normalizeInsensitive (str "cat.")) = true ∧
    reactionFilter false (str "cat") c9Rule = false := by
  decide

/-- C2 (amended): a failing bulk load leaves the mapping untouched and
returns `false` (the failure the spec names `LoadError`); a successful
load returns `true` and rebuilds the mapping from scratch so that each
key holds exactly the last row of the result set carrying that key,
independently of the prior in-memory state. -/
theorem reloadAll_replaces_mapping (rows : List Reaction) (data : RMap) :
    reloadAll none data = (data, JsRet.bool false) ∧
    (reloadAll (some rows) data).2 = JsRet.bool true ∧
    ∀ k, rget (reloadAll (some rows) data).1 k = rowsLookup rows k := by
  refine ⟨rfl, rfl, fun k => ?_⟩
  show rget (rows.foldl (fun acc r => rset acc (rkey r) r) []) k = rowsLookup rows k
  rw [rget_reload_fold]
  cases rowsLookup rows k <;> rfl

/-- A sample persisted row. -/
def rowA : Reaction :=
  { id := some 1, type := some (str "text"), trigger := some (str "hi")
    must_mention := false, insensitive := false
    response := none, emote := none, do_mention := false }

/-- A second sample persisted row. -/
def rowB : Reaction :=
  { id := some 2, type := some (str "message"), trigger := some (str "yo")
    must_mention := false, insensitive := true
    response := some (str "hey"), emote := none, do_mention := true }

/-- C2 counterexample: loading a two-row result set returns the boolean
`true`, not the count `2` that the claim says is returned (the count is
only logged). -/
theorem reloadAll_returns_bool_not_count :
    (reloadAll (some [rowA, rowB]) []).2 = JsRet.bool true ∧
    (reloadAll (some [rowA, rowB]) []).2 ≠ JsRet.num 2 := by
  decide

/-- C6: when the backing write fails the in-memory store is completely
unchanged and the handler returns `false`; when it succeeds, exactly the
entry at the resolved key is set to the normalized payload (the insert
path stamps the store-assigned id into a payload that had none) and every
other key is untouched. -/
theorem writeReaction_failure_noop_success_patches_one (d : ApiWriteData) (mem : RMap) :
    handleApiWriteReaction none d mem = (mem, false) ∧
    ∀ rid : Int,
      rget (handleApiWriteReaction (some rid) d mem).1 rid =
        some (if (buildUpsertData d).id = none ∧ rid ≠ 0 then
                { buildUpsertData d with id := some rid }
              else buildUpsertData d) ∧
      ∀ k, k ≠ rid → rget (handleApiWriteReaction (some rid) d mem).1 k = rget mem k := by
  refine ⟨rfl, fun rid => ⟨?_, fun k hk => ?_⟩⟩
  · simp [handleApiWriteReaction, rget_rset]
  · simp [handleApiWriteReaction, rget_rset, hk]

/-- A sample insert payload (no id). -/
def exWrite : ApiWriteData :=
  { id := none, type := some (str "text"), trigger := some (str "ping")
    must_mention := some 1, insensitive := some 0
    response := some (str "pong"), emote := some (str " :tada: ")
    do_mention := some 1 }

/-- A sample one-row in-memory store. -/
def exMem : RMap := [(3, rowA)]

/-- Witness for C6 at a concrete insert: key 7 now holds the normalized
payload stamped with id 7, and the unrelated key 3 is untouched. -/
theorem writeReaction_witness :
    rget (handleApiWriteReaction (some 7) exWrite exMem).1 7 =
      some { buildUpsertData exWrite with id := some 7 } ∧
    rget (handleApiWriteReaction (some 7) exWrite exMem).1 3 = rget exMem 3 := by
  have h := writeReaction_failure_noop_success_patches_one exWrite exMem
  exact ⟨by rw [(h.2 7).1]; decide, (h.2 7).2 3 (by decide)⟩

/-- C7: a delete whose id is absent from the in-memory store leaves that
store byte-for-byte unchanged (and raises no error — the handler returns
normally), and no delete ever changes the entry of a key other than the
requested one. -/
theorem delete_nonexistent_noop (st : RState) (dataId : Option Int) :
    ((∀ i, dataId = some i → rget st.mem i = none) →
      ((handleApiReactionDelete st dataId).1).mem = st.mem) ∧
    ∀ k, dataId ≠ some k →
      rget ((handleApiReactionDelete st dataId).1).mem k = rget st.mem k := by
  cases hid : dataId with
  | none => exact ⟨fun _ => rfl, fun _ _ => rfl⟩
  | some i =>
    by_cases h0 : i = 0
    · subst h0
      exact ⟨fun _ => rfl, fun _ _ => rfl⟩
    · by_cases hpos : i > 0
      · constructor
        · intro habs
          have hmem : rget st.mem i = none := habs i rfl
          by_cases hdb : (rget st.db i).isSome = true
          · simp [handleApiReactionDelete, jsOrNullInt, h0, hpos, deleteIfExists, hdb,
              rdel_eq_of_rget_none st.mem i hmem]
          · simp [handleApiReactionDelete, jsOrNullInt, h0, hpos, deleteIfExists, hdb]
        · intro k hk
          have hki : k ≠ i := fun h => hk (h ▸ rfl)
          by_cases hdb : (rget st.db i).isSome = true
          · simp [handleApiReactionDelete, jsOrNullInt, h0, hpos, deleteIfExists, hdb,
              rget_rdel_ne st.mem i k hki]
          · simp [handleApiReactionDelete, jsOrNullInt, h0, hpos, deleteIfExists, hdb]
      · have hres : handleApiReactionDelete st (some i) = (st, none) := by
          simp [handleApiReactionDelete, jsOrNullInt, h0, hpos]
        rw [hres]
        exact ⟨fun _ => rfl, fun _ _ => rfl⟩

/-- A sample synchronized store state. -/
def exSt : RState := ⟨[(1, rowA)], [(1, rowA)]⟩

/-- Witness for C7: deleting the absent id 42 leaves the in-memory store
unchanged, and deleting id 1 leaves the unrelated key 5 untouched. -/
theorem delete_nonexistent_noop_witness :
    ((handleApiReactionDelete exSt (some 42)).1).mem = exSt.mem ∧
    rget ((handleApiReactionDelete exSt (some 1)).1).mem 5 = rget exSt.mem 5 := by
  have h1 := delete_nonexistent_noop exSt (some 42)
  have h2 := delete_nonexistent_noop exSt (some 1)
  exact ⟨h1.1 (fun i hi => by injection hi with h; subst h; decide),
         h2.2 5 (by decide)⟩

/-- C10: a delete request whose id parses to a positive integer always
pushes back a full-list broadcast built from the patched in-memory state,
whether or not a rule with that id existed; a request whose id is
missing, unparseable, zero, or negative changes nothing and sends no
broadcast. -/
theorem delete_broadcast_policy (st : RState) (dataId : Option Int) :
    (∀ i, dataId = some i → i > 0 →
      (handleApiReactionDelete st dataId).2 =
        some (values ((handleApiReactionDelete st dataId).1).mem)) ∧
    ((dataId = none ∨ ∃ i, dataId = some i ∧ i ≤ 0) →
      handleApiReactionDelete st dataId = (st, none)) := by
  constructor
  · rintro i rfl hpos
    have h0 : i ≠ 0 := by omega
    simp only [handleApiReactionDelete, jsOrNullInt, if_neg h0, if_pos hpos]
  · rintro (rfl | ⟨i, rfl, hle⟩)
    · rfl
    · by_cases h0 : i = 0
      · subst h0
        rfl
      · have hpos : ¬ i > 0 := by omega
        simp only [handleApiReactionDelete, jsOrNullInt, if_neg h0, if_neg hpos]

/-- Witness for C10: deleting the absent positive id 42 still broadcasts
the full list, while the negative id `-3` is ignored outright. -/
theorem delete_broadcast_policy_witness :
    (handleApiReactionDelete exSt (some 42)).2 =
      some (values ((handleApiReactionDelete exSt (some 42)).1).mem) ∧
    handleApiReactionDelete exSt (some (-3)) = (exSt, none) := by
  have h1 := delete_broadcast_policy exSt (some 42)
  have h2 := delete_broadcast_policy exSt (some (-3))
  exact ⟨h1.1 42 rfl (by decide), h2.2 (Or.inr ⟨-3, rfl, by decide⟩)⟩

example : normalizeInsensitive (str "I love Cats!") = str "i love cats" := by decide
example : strContains (str "concatenate") (str "cat") = true := by decide
example : kwMatch (str "i love cats") (str "cat") = false := by decide
example : kwMatch (str "i love cats") (str "cats") = true := by decide
example : jsTrim (str "  hello ") = str "hello" := by decide
